import Mathlib

/-!
# Verification of the weather-bot agent session loop

A shallow embedding of the agent control loop of the weather-bot repository
(`src/lib/agent/prompt.ts` / `agentClient`, `src/lib/agent/tools.ts`,
`src/lib/types.ts`) in Lean 4, together with theorems settling the frozen
claims about the session loop, the response classifier, the action executor
and the tool boundary.

Strings of the TypeScript source are modelled as Lean `String`s; the
JavaScript string operations used by the code (`startsWith`, `replace`,
`trim`, `split`, `parseFloat`, the action regular expression) are given
explicit executable models over `List Char`.  Network effects (the OpenAI
call, the Linear activity publications, the upstream tool HTTP calls) are
modelled by oracles and explicit upstream-outcome data, so that one run of
`handleUserPrompt` is a pure function of those oracles.
-/

namespace WeatherBot

/-- Decidable equality for `Except`, so that concrete runs of the
fallible functions below can be settled by `decide`. -/
instance {ε α : Type} [DecidableEq ε] [DecidableEq α] :
    DecidableEq (Except ε α) := fun a b =>
  match a, b with
  | .ok x, .ok y =>
    if h : x = y then .isTrue (by rw [h]) else .isFalse (by simp [h])
  | .error x, .error y =>
    if h : x = y then .isTrue (by rw [h]) else .isFalse (by simp [h])
  | .ok _, .error _ => .isFalse (by simp)
  | .error _, .ok _ => .isFalse (by simp)

/-! ## JavaScript string primitives -/

/-- The whitespace characters recognised by `String.prototype.trim`, the
`\s` regex class and `parseFloat` (restricted to the ASCII whitespace that
can actually occur in model output). -/
def jsWhitespace (c : Char) : Bool :=
  c = ' ' || c = '\t' || c = '\n' || c = '\r' || c = '\x0b' || c = '\x0c'

/-- The `\w` regex class: ASCII letters, digits and underscore. -/
def isWordChar (c : Char) : Bool :=
  c.isAlpha || c.isDigit || c = '_'

/-- JavaScript `s.trim()` on the character list: strip whitespace from both ends. -/
def jsTrimL (l : List Char) : List Char :=
  ((l.dropWhile jsWhitespace).reverse.dropWhile jsWhitespace).reverse

/-- JavaScript `s.trim()` on strings. -/
def jsTrimStr (s : String) : String := ⟨jsTrimL s.data⟩

/-- JavaScript `startsWith`: the needle is a prefix of the haystack. -/
def strStartsWith (s kw : String) : Bool := kw.data.isPrefixOf s.data

/-- JavaScript `s.replace(pat, "")` for a plain-string pattern: remove the first
occurrence of `pat`, leaving the string unchanged when `pat` does not
occur. -/
def replaceFirstL (pat : List Char) : List Char → List Char
  | [] => []
  | c :: rest =>
    if pat.isPrefixOf (c :: rest) then (c :: rest).drop pat.length
    else c :: replaceFirstL pat rest

/-- JavaScript `s.replace(kw, "")` on strings. -/
def replaceFirstStr (s kw : String) : String := ⟨replaceFirstL kw.data s.data⟩

/-- JavaScript `s.split(sep)` for a one-character separator, keeping empty fields,
exactly as in JavaScript (`"".split(",") = [""]`). -/
def jsSplit (sep : Char) : List Char → List (List Char)
  | [] => [[]]
  | c :: rest =>
    match jsSplit sep rest with
    | [] => [[]]
    | h :: t => if c = sep then [] :: h :: t else (c :: h) :: t

/-- JavaScript `params || null`: falsiness of the empty string. -/
def strOrNone (s : String) : Option String := if s = "" then none else some s

/-! ## `parseFloat`

`parseFloat` is modelled exactly at the syntactic level: leading
whitespace is skipped, an optional sign, either the literal `Infinity` or
a decimal mantissa (digits, optionally a point and more digits, at least
one digit in total) followed by an optional well-formed exponent part;
any trailing garbage is ignored, and `NaN` is represented by `none`.
The numeric value is kept as an exact decimal (`JsNum.finite` carries
sign, integer part, fraction digits and exponent, with denotation
`JsNum.val`); IEEE-754 rounding is immaterial to every claim — only
NaN-ness and the identity and order of the parsed values are ever
used. -/

/-- A JavaScript number that `parseFloat` can produce (other than `NaN`,
which is modelled by `Option.none`).  `finite neg ip fp flen e` denotes
the exact decimal `(-1)^neg * (ip + fp/10^flen) * 10^e`. -/
inductive JsNum where
  | finite (neg : Bool) (ip fp : ℕ) (flen : ℕ) (exp : ℤ)
  | inf (neg : Bool)
deriving DecidableEq, Repr

/-- The rational denoted by a finite `JsNum` (documentation of the
encoding; no claim depends on it). -/
def JsNum.val : JsNum → Option ℚ
  | .finite neg ip fp flen e =>
    some ((if neg then -1 else 1) * ((ip : ℚ) + (fp : ℚ) / 10 ^ flen) * 10 ^ e)
  | .inf _ => none

/-- Numeric value of a digit list, most significant first. -/
def natOfDigits (l : List Char) : ℕ :=
  l.foldl (fun a c => 10 * a + (c.toNat - '0'.toNat)) 0

/-- Parse the exponent part (`e`/`E`, optional sign, digits); a malformed
exponent part is trailing garbage and contributes exponent `0`. -/
def parseExp (l : List Char) : ℤ :=
  match l with
  | 'e' :: r | 'E' :: r =>
    match r with
    | '+' :: r2 => (natOfDigits (r2.takeWhile Char.isDigit) : ℤ)
    | '-' :: r2 =>
      if (r2.takeWhile Char.isDigit).isEmpty then 0
      else -(natOfDigits (r2.takeWhile Char.isDigit) : ℤ)
    | _ =>
      if (r.takeWhile Char.isDigit).isEmpty then 0
      else (natOfDigits (r.takeWhile Char.isDigit) : ℤ)
  | _ => 0

/-- Parse mantissa and exponent after the optional sign. -/
def parseUnsigned (neg : Bool) (l : List Char) : Option JsNum :=
  if ("Infinity".data).isPrefixOf l then some (.inf neg)
  else
    let ip := l.takeWhile Char.isDigit
    let r1 := l.drop ip.length
    let fp := match r1 with
      | '.' :: rs => rs.takeWhile Char.isDigit
      | _ => []
    let r2 := match r1 with
      | '.' :: rs => rs.drop fp.length
      | _ => r1
    if ip.isEmpty && fp.isEmpty then none
    else
      some (.finite neg (natOfDigits ip) (natOfDigits fp) fp.length (parseExp r2))

/-- JavaScript `parseFloat` on a character list; `none` is `NaN`. -/
def parseFloat (l : List Char) : Option JsNum :=
  match l.dropWhile jsWhitespace with
  | '+' :: r => parseUnsigned false r
  | '-' :: r => parseUnsigned true r
  | r => parseUnsigned false r

/-! ## The action pattern

`response.match(/ACTION:\s*(\w+)\(([^)]+)\)/)`: search left to right for
the literal `ACTION:`, then greedily whitespace, a non-empty identifier,
a literal `(`, a non-empty run of non-`)` characters and a literal `)`.
Because the character classes `\s`, `\w` and `[^)]` are pairwise
separated from the literal that follows them, the greedy match is
deterministic and needs no backtracking. -/

/-- Try matching the action pattern anchored at the head of `s`,
returning the captured tool name and argument text. -/
def tryActionAt (s : List Char) : Option (List Char × List Char) :=
  if ("ACTION:".data).isPrefixOf s then
    let r1 := (s.drop ("ACTION:".data).length).dropWhile jsWhitespace
    let name := r1.takeWhile isWordChar
    let r2 := r1.drop name.length
    if name.isEmpty then none
    else
      match r2 with
      | '(' :: r3 =>
        let args := r3.takeWhile (fun c => c ≠ ')')
        if args.isEmpty then none
        else
          match r3.drop args.length with
          | ')' :: _ => some (name, args)
          | _ => none
      | _ => none
  else none

/-- Regex search: try the pattern at every position, leftmost match
first, as `String.prototype.match` does for a non-global regex. -/
def actionSearch : List Char → Option (List Char × List Char)
  | [] => none
  | c :: rest =>
    match tryActionAt (c :: rest) with
    | some r => some r
    | none => actionSearch rest

/-- The two capture groups of the action regex on a string, if any. -/
def actionMatch (r : String) : Option (String × String) :=
  (actionSearch r.data).map (fun p => (⟨p.1⟩, ⟨p.2⟩))

/-! ## Data model (`src/lib/types.ts`, three-tool variant) -/

/-- The closed tool-name enumeration `ToolName`. -/
inductive ToolName where
  | getCoordinates
  | getWeather
  | getTime
deriving DecidableEq, Repr

/-- Predicate `isToolName` from `types.ts`: membership in the closed enumeration. -/
def isToolName (value : String) : Bool :=
  value = "getCoordinates" || value = "getWeather" || value = "getTime"

/-- The `value as ToolName` cast, as a total function into the
enumeration (defined exactly on the strings `isToolName` accepts). -/
def toolNameOf (value : String) : Option ToolName :=
  if value = "getCoordinates" then some .getCoordinates
  else if value = "getWeather" then some .getWeather
  else if value = "getTime" then some .getTime
  else none

/-- The five Linear agent-activity kinds (`L.AgentActivityType`). -/
inductive ActKind where
  | thought
  | action
  | response
  | elicitation
  | err
deriving DecidableEq, Repr

/-- The `Content` union of `types.ts`: the payload of one published
activity.  The `action` variant carries the optional `parameter` and the
optional `result` field. -/
inductive Content where
  | thought (body : String)
  | action (action : ToolName) (parameter : Option String) (result : Option String)
  | response (body : String)
  | elicitation (body : String)
  | error (body : String)
deriving DecidableEq, Repr

/-! ## The response classifier
(`AgentClient.mapResponseToLinearActivityContent`) -/

/-- The ordered keyword mapping `typeToKeyword` (object-literal insertion
order, as `Object.entries` enumerates it). -/
def typeToKeyword : List (ActKind × String) :=
  [(.thought, "THINKING:"), (.action, "ACTION:"), (.response, "RESPONSE:"),
   (.elicitation, "ELICITATION:"), (.err, "ERROR:")]

/-- The keyword scan: the first entry whose keyword prefixes `r`. -/
def findKind (entries : List (ActKind × String)) (r : String) :
    Option (ActKind × String) :=
  entries.find? (fun e => strStartsWith r e.2)

/-- The classifier `mapResponseToLinearActivityContent`.  A thrown exception is
modelled by `Except.error` carrying the exception message
(`UnreachableCaseError` produces `Unreachable case: <value>`). -/
def mapResponse (r : String) : Except String Content :=
  match findKind typeToKeyword r with
  | some (.thought, kw) => .ok (.thought (jsTrimStr (replaceFirstStr r kw)))
  | some (.response, kw) => .ok (.response (jsTrimStr (replaceFirstStr r kw)))
  | some (.elicitation, kw) => .ok (.elicitation (jsTrimStr (replaceFirstStr r kw)))
  | some (.err, kw) => .ok (.error (jsTrimStr (replaceFirstStr r kw)))
  | some (.action, _) =>
    match actionMatch r with
    | some (name, args) =>
      match toolNameOf name with
      | some t => .ok (.action t (strOrNone args) none)
      | none => .error ("Invalid tool name: " ++ name)
    | none => .error "Unreachable case: action"
  | none => .error "Unreachable case: undefined"

/-! ## The action executor (`AgentClient.executeAction`) -/

/-- An upstream tool invocation as the executor performs it.  The two
fields of `weather` are the positional arguments of the JavaScript call
`getWeather(lng, lat)`, in call order: first argument, then second. -/
inductive ToolCall where
  | coords (cityText : String)
  | weather (first second : JsNum)
deriving DecidableEq, Repr

/-- The executor `executeAction`.  The oracle `orc` abstracts the awaited network call
together with the `JSON.stringify` of its result; the returned list
records which upstream invocations actually happened (none on a thrown
error).  `Except.error` models a thrown exception. -/
def executeAction (action : ToolName) (parameter : Option String)
    (orc : ToolCall → String) : Except String (String × List ToolCall) :=
  match parameter with
  | none => .error "Parameter is required for action execution"
  | some p =>
    if p = "" then .error "Parameter is required for action execution"
    else
      match action with
      | .getCoordinates =>
        let call := ToolCall.coords ⟨p.data.filter (fun c => c ≠ '"')⟩
        .ok (orc call, [call])
      | .getWeather =>
        let parts := (jsSplit ',' p.data).map (fun q => parseFloat (jsTrimL q))
        match parts with
        | some lat :: some lng :: _ =>
          let call := ToolCall.weather lng lat
          .ok (orc call, [call])
        | _ => .error "Invalid parameter for getWeather action"
      | .getTime => .error "Unreachable case: getTime"

/-! ## The session loop (`AgentClient.handleUserPrompt`)

One run of the loop is a pure function of two oracles: `mo`, the OpenAI
completion oracle (given the current transcript, the returned assistant
text, or `Except.error` when the underlying call throws and `callOpenAI`
rethrows `OpenAI API error: …`), and `orc`, the tool oracle of
`executeAction`.  Activity publication (`linearClient.createAgentActivity`)
is modelled by appending to the `activities` trace; the inter-cycle
pacing delay has no observable effect and is dropped. -/

/-- Chat roles of the conversation transcript. -/
inductive Role where
  | system
  | user
  | assistant
deriving DecidableEq, Repr

/-- One transcript message. -/
structure Msg where
  role : Role
  content : String
deriving DecidableEq, Repr

/-- The observable state of one session turn. -/
structure AgentState where
  messages : List Msg
  activities : List Content
  modelCalls : ℕ
  toolCalls : List ToolCall
  iterations : ℕ
  taskComplete : Bool
deriving DecidableEq, Repr

/-- The cap `MAX_ITERATIONS` of `AgentClient`. -/
def MAX_ITERATIONS : ℕ := 10

/-- The fixed Error body published when the iteration cap is reached. -/
def maxIterationsMessage : String :=
  "The agent has reached the maximum number of iterations and will now stop."

/-- One pass of the `while` body of `handleUserPrompt` (executed only
when the loop guard held): call the model, classify, publish and branch;
any exception thrown inside the `try` is caught and published as an
`Agent error: …` Error activity that completes the task. -/
def loopIter (mo : List Msg → Except String String) (orc : ToolCall → String)
    (s : AgentState) : AgentState :=
  match mo s.messages with
  | .error e =>
    { s with iterations := s.iterations + 1, modelCalls := s.modelCalls + 1,
             activities := s.activities ++
               [.error ("Agent error: " ++ ("OpenAI API error: " ++ e))],
             taskComplete := true }
  | .ok response =>
    match mapResponse response with
    | .error msg =>
      { s with iterations := s.iterations + 1, modelCalls := s.modelCalls + 1,
               activities := s.activities ++ [.error ("Agent error: " ++ msg)],
               taskComplete := true }
    | .ok (.thought b) =>
      { s with iterations := s.iterations + 1, modelCalls := s.modelCalls + 1,
               activities := s.activities ++ [.thought b],
               messages := s.messages ++ [⟨.assistant, response⟩] }
    | .ok (.action t param res) =>
      match executeAction t param orc with
      | .error msg =>
        { s with iterations := s.iterations + 1, modelCalls := s.modelCalls + 1,
                 activities := s.activities ++
                   [.action t param res, .error ("Agent error: " ++ msg)],
                 taskComplete := true }
      | .ok (result, calls) =>
        { s with iterations := s.iterations + 1, modelCalls := s.modelCalls + 1,
                 activities := s.activities ++
                   [.action t param res,
                    .action t (match param with
                               | some p => strOrNone p
                               | none => none) (some result)],
                 messages := s.messages ++
                   [⟨.assistant, response⟩, ⟨.user, "Tool result: " ++ result⟩],
                 toolCalls := s.toolCalls ++ calls }
    | .ok (.response b) =>
      { s with iterations := s.iterations + 1, modelCalls := s.modelCalls + 1,
               activities := s.activities ++ [.response b], taskComplete := true }
    | .ok (.elicitation b) =>
      { s with iterations := s.iterations + 1, modelCalls := s.modelCalls + 1,
               activities := s.activities ++ [.elicitation b], taskComplete := true }
    | .ok (.error b) =>
      { s with iterations := s.iterations + 1, modelCalls := s.modelCalls + 1,
               activities := s.activities ++ [.error b], taskComplete := true }

/-- The `while (!taskComplete && iterations < MAX_ITERATIONS)` loop,
driven by fuel.  Since every pass increments `iterations`, fuel
`MAX_ITERATIONS` from a fresh state is enough for the guard to decide
termination exactly as the source loop does. -/
def runLoop (mo : List Msg → Except String String) (orc : ToolCall → String) :
    ℕ → AgentState → AgentState
  | 0, s => s
  | f + 1, s =>
    if s.taskComplete = false ∧ s.iterations < MAX_ITERATIONS then
      runLoop mo orc f (loopIter mo orc s)
    else s

/-- The system prompt of `src/lib/agent/prompt.ts` (the weather-assistant
variant imported by `AgentClient`; its exact text never influences the
loop itself). -/
def prompt : String :=
  "You're a helpful weather assistant that can get weather information for any city. You must respond with EXACTLY ONE activity type per cycle.\n\nCRITICAL: You can only emit ONE of these per response - never combine them:\n\nTHINKING: Use this for observations, chain of thought, or analysis\nACTION: Use this to call one of the available tools (will be executed in two parts)\nELICITATION: Use this to ask the user for more information (will end your turn)\nRESPONSE: Use this for final responses when the task is complete (will end your turn)\nERROR: Use this to report errors, like if a tool fails (will end your turn)\n\nAvailable tools:\n- getCoordinates(city_name): Get coordinates for a city\n- getWeather(lat, long): Get weather for given coordinates\n- getTime(lat, long): Get current time for given coordinates\n\nIMPORTANT CONTEXT HANDLING:\n- If the user asks a follow-up question like \"How about [city]?\" or \"What about [city]?\", they want weather for that city\n- If the user asks \"How about Seoul?\" after asking about Seattle, they want weather for Seoul\n- Use the conversation history to understand context and previous requests\n\nRESPONSE FORMAT RULES:\n1. Start with exactly ONE activity type\n2. NEVER combine multiple activity types in a single response\n3. Each response must be complete and standalone\n\nFor ACTION responses:\n- Format: ACTION: tool_name(parameter)\n- Example: ACTION: getCoordinates(\"New York\")\n- Example: ACTION: getWeather(40.7128, -74.0060)\n- The system will handle the two-part execution automatically\n\nExamples of correct responses:\n- \"THINKING: The user is asking for weather information. I need to get coordinates for the city first\"\n- \"ACTION: getCoordinates(\"Paris\")\"\n- \"RESPONSE: The weather in Paris is sunny with 22°C\"\n- \"ACTION: getTime(40.7128, -74.0060)\"\n- \"RESPONSE: The current time in New York is 10:00 AM (DST active)\"\n- \"ELICITATION: Which city would you like weather information for?\"\n- \"ERROR: The tool failed to execute\"\n- \"RESPONSE: I have access to these tools: getCoordinates(city_name) to get coordinates for a city, getWeather(lat, long) to get weather for given coordinates, and getTime(lat, long) to get current time for given coordinates\"\n\nFOLLOW-UP QUESTION EXAMPLES:\n- User: \"How about Seoul?\" → THINKING: The user wants weather for Seoul, then ACTION: getCoordinates(\"Seoul\")\n- User: \"What about Tokyo?\" → THINKING: The user wants weather for Tokyo, then ACTION: getCoordinates(\"Tokyo\")\n- User: \"And London?\" → THINKING: The user wants weather for London, then ACTION: getCoordinates(\"London\")\n\nNEVER do this (multiple activities in one response):\n- \"THINKING: I need coordinates. ACTION: getCoordinates(\"Paris\")\"\n\nYour first iteration must be a THINKING statement to acknowledge the user's prompt, like\n- \"THINKING: The user has asked me to get weather for [city]. I need to get coordinates first.\"\n\nIf the user asks about your tools or capabilities, provide a RESPONSE listing the available tools.\n\nAlways emit exactly ONE activity type per cycle."

/-- Function `handleUserPrompt`: seed the transcript, run the bounded loop, and
publish the fixed max-iterations Error activity if the loop exited still
running at the cap. -/
def handleUserPrompt (mo : List Msg → Except String String)
    (orc : ToolCall → String) (userPrompt : String) : AgentState :=
  let s0 : AgentState :=
    { messages := [⟨.system, prompt⟩, ⟨.user, userPrompt⟩],
      activities := [], modelCalls := 0, toolCalls := [],
      iterations := 0, taskComplete := false }
  let s := runLoop mo orc MAX_ITERATIONS s0
  if s.taskComplete = false ∧ MAX_ITERATIONS ≤ s.iterations then
    { s with activities := s.activities ++ [.error maxIterationsMessage] }
  else s

/-! ## The tools (`src/lib/agent/tools.ts`)

Each tool is a pure function of its arguments and of the outcome of its
upstream HTTP interaction.  An upstream interaction either rejects at
`fetch` (network error or abort — the thrown error's message is carried),
or yields a response with an `ok` flag, a status code and status text,
whose `json()` either throws (malformed payload, carried as the error
message) or produces a typed payload.  `Except.error` in a tool's result
type models an exception escaping the tool; the theorems show it never
happens. -/

/-- The outcome of one upstream `fetch` + `json()` interaction. -/
inductive UpstreamResult (α : Type) where
  | fetchError (msg : String)
  | httpResponse (ok : Bool) (status : ℕ) (statusText : String)
      (json : Except String α)

/-- One element of the Nominatim search result array. -/
structure GeoRecord where
  lat : String
  lon : String
  display_name : String
deriving DecidableEq, Repr

/-- The result union of `getCoordinates`:
`{ lat, lon, displayName } | { error }` (the latitude/longitude carry the
`parseFloat` of the upstream strings, `none` for `NaN`). -/
inductive CoordsResult where
  | found (lat lon : Option JsNum) (displayName : String)
  | failed (error : String)
deriving DecidableEq, Repr

/-- JavaScript `try/catch` returning normally from the handler: the body
is an `Except` computation; a thrown error is converted to a normal
return by the handler. -/
def jsTry {α : Type} (body : Except String α) (handler : String → α) :
    Except String α :=
  match body with
  | .error e => .ok (handler e)
  | .ok v => .ok v

/-- Tool `getCoordinates` from `tools.ts`.  The Nominatim payload is a list of
records (a JSON `null` collapses with the empty list: both fail the
`data && data.length > 0` test). -/
def getCoordinates (city_name : String)
    (u : UpstreamResult (List GeoRecord)) : Except String CoordsResult :=
  jsTry
    (match u with
     | .fetchError m => .error m
     | .httpResponse ok status statusText json =>
       if !ok then
         .ok (.failed ("OpenStreetMap API error: " ++ toString status ++ " "
           ++ statusText))
       else
         match json with
         | .error m => .error m
         | .ok data =>
           match data with
           | result :: _ =>
             .ok (.found (parseFloat result.lat.data) (parseFloat result.lon.data)
                  result.display_name)
           | [] => .ok (.failed "Location not found"))
    (fun m => .failed ("Failed to get coordinates: " ++ m))

/-- The `current` object of the Open-Meteo payload. -/
structure WeatherCurrent where
  temperature_2m : JsNum
  weathercode : ℤ
deriving DecidableEq, Repr

/-- The `weatherCodes` lookup table of `getWeather`. -/
def weatherCodes (code : ℤ) : Option String :=
  if code = 0 then some "clear sky"
  else if code = 1 then some "mainly clear"
  else if code = 2 then some "partly cloudy"
  else if code = 3 then some "overcast"
  else if code = 45 then some "fog"
  else if code = 48 then some "depositing rime fog"
  else if code = 51 then some "light drizzle"
  else if code = 53 then some "moderate drizzle"
  else if code = 55 then some "dense drizzle"
  else if code = 56 then some "light freezing drizzle"
  else if code = 57 then some "dense freezing drizzle"
  else if code = 61 then some "slight rain"
  else if code = 63 then some "moderate rain"
  else if code = 65 then some "heavy rain"
  else if code = 66 then some "light freezing rain"
  else if code = 67 then some "heavy freezing rain"
  else if code = 71 then some "slight snow"
  else if code = 73 then some "moderate snow"
  else if code = 75 then some "heavy snow"
  else if code = 77 then some "snow grains"
  else if code = 80 then some "slight rain showers"
  else if code = 81 then some "moderate rain showers"
  else if code = 82 then some "violent rain showers"
  else if code = 85 then some "slight snow showers"
  else if code = 86 then some "heavy snow showers"
  else if code = 95 then some "thunderstorm"
  else if code = 96 then some "thunderstorm with slight hail"
  else if code = 99 then some "thunderstorm with heavy hail"
  else none

/-- Helper `getWeatherDescription`: table lookup with the `|| "unknown weather"`
fallback. -/
def getWeatherDescription (code : ℤ) : String :=
  (weatherCodes code).getD "unknown weather"

/-- Rendering of a JSON number into the weather template string
(abstraction of JavaScript float printing; no claim depends on its exact
digits). -/
def numStr : JsNum → String
  | .finite neg ip fp flen e =>
    (if neg then "-" else "") ++ toString ip
      ++ (if flen = 0 then "" else "." ++ toString fp)
      ++ (if e = 0 then "" else "e" ++ toString e)
  | .inf neg => if neg then "-Infinity" else "Infinity"

/-- Tool `getWeather` from `tools.ts`.  The payload is the `current` object
when present (`data && data.current` collapses a JSON `null` and a
missing `current` into `none`).  There is no `response.ok` check in the
source: a non-2xx response flows into JSON handling unchanged. -/
def getWeather (lat long : JsNum) (u : UpstreamResult (Option WeatherCurrent)) :
    Except String String :=
  jsTry
    (match u with
     | .fetchError m => .error m
     | .httpResponse _ _ _ json =>
       match json with
       | .error m => .error m
       | .ok (some current) =>
         .ok (numStr current.temperature_2m ++ "Â°C, "
           ++ getWeatherDescription current.weathercode)
       | .ok none => .ok "Weather data not available")
    (fun m => "Failed to get weather: " ++ m)

/-- The timeapi.io payload. -/
structure TimeRecord where
  date : String
  time : String
  timeZone : String
  dayOfWeek : String
  dstActive : Bool
deriving DecidableEq, Repr

/-- The abort ceiling of `getTime`: 60000 ms. -/
def timeoutMs : ℕ := 60000

/-- The message of the `AbortError` raised when the `AbortController`
fires. -/
def abortErrorMessage : String := "The operation was aborted"

/-- Tool `getTime` from `tools.ts`.  Here `latencyMs` is the upstream latency; when
it reaches the 60-second ceiling the `AbortController` aborts the fetch,
which then rejects with an `AbortError` regardless of the upstream
outcome (`data` is the payload when present; a JSON `null` fails
`if (data)`). -/
def getTime (lat long : JsNum) (latencyMs : ℕ)
    (u : UpstreamResult (Option TimeRecord)) : Except String String :=
  let effective := if timeoutMs ≤ latencyMs then .fetchError abortErrorMessage else u
  jsTry
    (match effective with
     | .fetchError m => .error m
     | .httpResponse ok status statusText json =>
       if !ok then
         .ok ("Time API error: " ++ toString status ++ " " ++ statusText)
       else
         match json with
         | .error m => .error m
         | .ok (some data) =>
           .ok (data.dayOfWeek ++ ", " ++ data.date ++ " at " ++ data.time
             ++ " " ++ data.timeZone
             ++ (if data.dstActive then " (DST active)" else ""))
         | .ok none => .ok "Time data not available")
    (fun m => "Failed to get time: " ++ m)

/-! ## Helper lemmas -/

/-- The five keyword literals, in scan order. -/
def kwList : List String := typeToKeyword.map Prod.snd

/-- Two prefixes of the same character list are comparable. -/
lemma isPrefixOf_comparable {l1 l2 s : List Char}
    (h1 : l1.isPrefixOf s = true) (h2 : l2.isPrefixOf s = true) :
    l1.isPrefixOf l2 = true ∨ l2.isPrefixOf l1 = true := by
  rcases List.prefix_or_prefix_of_prefix (List.isPrefixOf_iff_prefix.mp h1)
      (List.isPrefixOf_iff_prefix.mp h2) with h | h
  · exact Or.inl (List.isPrefixOf_iff_prefix.mpr h)
  · exact Or.inr (List.isPrefixOf_iff_prefix.mpr h)

/-- No two distinct entries of the keyword mapping can both prefix the
same response: no keyword is a prefix of another. -/
lemma entry_unique (s : String) :
    ∀ e1 ∈ typeToKeyword, ∀ e2 ∈ typeToKeyword,
      strStartsWith s e1.2 = true → strStartsWith s e2.2 = true → e1 = e2 := by
  intro e1 h1 e2 h2 hs1 hs2
  simp only [strStartsWith] at hs1 hs2
  have hp := isPrefixOf_comparable hs1 hs2
  unfold typeToKeyword at h1 h2
  fin_cases h1 <;> fin_cases h2 <;>
    first
      | rfl
      | exact absurd hp (by decide)

/-- The first match of `find?` is the unique satisfying element. -/
lemma find?_eq_some_of_unique {α : Type} (p : α → Bool) :
    ∀ (l : List α) (a : α),
      (∀ x ∈ l, ∀ y ∈ l, p x = true → p y = true → x = y) →
      a ∈ l → p a = true → l.find? p = some a := by
  intro l
  induction l with
  | nil => intro a _ ha _; exact absurd ha (List.not_mem_nil a)
  | cons b t ih =>
    intro a hu ha hp
    rcases List.mem_cons.mp ha with rfl | hat
    · exact List.find?_cons_of_pos t hp
    · by_cases hb : p b = true
      · have hba : b = a := hu b (List.mem_cons_self b t) a (List.mem_cons_of_mem b hat) hb hp
        subst hba
        exact List.find?_cons_of_pos t hb
      · rw [List.find?_cons_of_neg t (by simpa using hb)]
        exact ih a
          (fun x hx y hy => hu x (List.mem_cons_of_mem b hx) y (List.mem_cons_of_mem b hy))
          hat hp

/-- When the satisfying element is unique, `find?` is invariant under
permutation of the scanned list. -/
lemma find?_perm_of_unique {α : Type} (p : α → Bool) {l l' : List α}
    (hperm : l.Perm l')
    (hu : ∀ x ∈ l, ∀ y ∈ l, p x = true → p y = true → x = y) :
    l'.find? p = l.find? p := by
  cases h : l.find? p with
  | some a =>
    exact find?_eq_some_of_unique p l' a
      (fun x hx y hy => hu x (hperm.mem_iff.mpr hx) y (hperm.mem_iff.mpr hy))
      (hperm.mem_iff.mp (List.mem_of_find?_eq_some h)) (List.find?_some h)
  | none =>
    rw [List.find?_eq_none] at h ⊢
    exact fun x hx => h x (hperm.mem_iff.mpr hx)

/-- Keyword-level version of `entry_unique`. -/
lemma keyword_unique (s : String) :
    ∀ k1 ∈ kwList, ∀ k2 ∈ kwList,
      strStartsWith s k1 = true → strStartsWith s k2 = true → k1 = k2 := by
  intro k1 h1 k2 h2 hs1 hs2
  simp only [strStartsWith] at hs1 hs2
  have hp := isPrefixOf_comparable hs1 hs2
  unfold kwList typeToKeyword at h1 h2
  simp only [List.map_cons, List.map_nil] at h1 h2
  fin_cases h1 <;> fin_cases h2 <;>
    first
      | rfl
      | exact absurd hp (by decide)

/-! ## Claim C9: at most one keyword prefix can match, and the keyword
scan is order-independent -/

/-- Claim C9. No keyword of the classifier's mapping is a prefix of
another, so for every raw model output at most one of the five keyword
prefixes matches (any two matching keywords are equal), and the
classifier's keyword scan returns the same entry no matter in which
order the mapping is scanned. -/
theorem keyword_scan_unique_and_order_independent :
    (∀ (s : String), ∀ k1 ∈ kwList, ∀ k2 ∈ kwList,
      strStartsWith s k1 = true → strStartsWith s k2 = true → k1 = k2) ∧
    (∀ (s : String) (l : List (ActKind × String)), l.Perm typeToKeyword →
      findKind l s = findKind typeToKeyword s) := by
  refine ⟨keyword_unique, fun s l hperm => ?_⟩
  unfold findKind
  exact find?_perm_of_unique _ hperm.symm
    (fun x hx y hy hpx hpy => entry_unique s x hx y hy hpx hpy)

/-- Witness for C9 at concrete inputs: the matching keyword of a
`RESPONSE:`-prefixed output is unique, and scanning the mapping in
reverse order classifies it identically. -/
theorem keyword_scan_unique_witness :
    "RESPONSE:" = "RESPONSE:" ∧
    findKind typeToKeyword.reverse "RESPONSE: hi" =
      findKind typeToKeyword "RESPONSE: hi" := by
  constructor
  · exact keyword_scan_unique_and_order_independent.1 "RESPONSE: hi"
      "RESPONSE:" (by decide) "RESPONSE:" (by decide) (by decide) (by decide)
  · exact keyword_scan_unique_and_order_independent.2 "RESPONSE: hi"
      typeToKeyword.reverse (by decide)

/-- Removing the first occurrence of `pat` from a string that starts
with `pat` drops exactly the prefix. -/
lemma replaceFirstL_of_prefix (pat s : List Char)
    (h : pat.isPrefixOf s = true) : replaceFirstL pat s = s.drop pat.length := by
  cases s with
  | nil => simp [replaceFirstL]
  | cons c rest => simp [replaceFirstL, h]

/-- A response starting with one keyword starts with no other keyword. -/
lemma startsWith_false_of_other {r k1 : String} (k2 : String)
    (h : strStartsWith r k1 = true) (h1 : k1 ∈ kwList) (h2 : k2 ∈ kwList)
    (hne : k1 ≠ k2) : strStartsWith r k2 = false := by
  cases hc : strStartsWith r k2
  · rfl
  · exact absurd (keyword_unique r k1 h1 k2 h2 h hc) hne

/-- Shared helper: a `THINKING:`-prefixed output always classifies as a
Thought with the prefix stripped and trimmed. -/
lemma mapResponse_thinking {r : String} (h : strStartsWith r "THINKING:" = true) :
    mapResponse r = .ok (.thought (jsTrimStr ⟨r.data.drop 9⟩)) := by
  have hstrip := replaceFirstL_of_prefix "THINKING:".data r.data h
  simp only [mapResponse, findKind, typeToKeyword, List.find?, h,
    replaceFirstStr, hstrip]
  rfl

/-! ## Claim C2: classification of keyword-prefixed outputs -/

/-- Claim C2, amended. For every raw output beginning with one of the four
non-Action keywords, classification returns an Activity of the matching
kind whose body is the raw text with the leading keyword removed and
trimmed.  For `ACTION:`-prefixed outputs, classification returns an
Action activity exactly when the action pattern matches with a
registered tool name, and otherwise throws (a classification failure)
instead of returning an Activity. -/
theorem classification_of_prefixed_output (r : String) :
    (strStartsWith r "THINKING:" = true →
      mapResponse r = .ok (.thought (jsTrimStr ⟨r.data.drop 9⟩))) ∧
    (strStartsWith r "RESPONSE:" = true →
      mapResponse r = .ok (.response (jsTrimStr ⟨r.data.drop 9⟩))) ∧
    (strStartsWith r "ELICITATION:" = true →
      mapResponse r = .ok (.elicitation (jsTrimStr ⟨r.data.drop 12⟩))) ∧
    (strStartsWith r "ERROR:" = true →
      mapResponse r = .ok (.error (jsTrimStr ⟨r.data.drop 6⟩))) ∧
    (strStartsWith r "ACTION:" = true →
      (∀ name args t, actionMatch r = some (name, args) →
        toolNameOf name = some t →
        mapResponse r = .ok (.action t (strOrNone args) none)) ∧
      (∀ name args, actionMatch r = some (name, args) →
        toolNameOf name = none →
        mapResponse r = .error ("Invalid tool name: " ++ name)) ∧
      (actionMatch r = none →
        mapResponse r = .error "Unreachable case: action")) := by
  refine ⟨fun h => mapResponse_thinking h, fun h => ?_, fun h => ?_,
    fun h => ?_, fun h => ?_⟩
  · have hT := startsWith_false_of_other (r := r) "THINKING:" h (by decide)
      (by decide) (by decide)
    have hA := startsWith_false_of_other (r := r) "ACTION:" h (by decide)
      (by decide) (by decide)
    have hstrip := replaceFirstL_of_prefix "RESPONSE:".data r.data h
    simp only [mapResponse, findKind, typeToKeyword, List.find?, h, hT, hA,
      replaceFirstStr, hstrip]
    rfl
  · have hT := startsWith_false_of_other (r := r) "THINKING:" h (by decide)
      (by decide) (by decide)
    have hA := startsWith_false_of_other (r := r) "ACTION:" h (by decide)
      (by decide) (by decide)
    have hR := startsWith_false_of_other (r := r) "RESPONSE:" h (by decide)
      (by decide) (by decide)
    have hstrip := replaceFirstL_of_prefix "ELICITATION:".data r.data h
    simp only [mapResponse, findKind, typeToKeyword, List.find?, h, hT, hA, hR,
      replaceFirstStr, hstrip]
    rfl
  · have hT := startsWith_false_of_other (r := r) "THINKING:" h (by decide)
      (by decide) (by decide)
    have hA := startsWith_false_of_other (r := r) "ACTION:" h (by decide)
      (by decide) (by decide)
    have hR := startsWith_false_of_other (r := r) "RESPONSE:" h (by decide)
      (by decide) (by decide)
    have hE := startsWith_false_of_other (r := r) "ELICITATION:" h (by decide)
      (by decide) (by decide)
    have hstrip := replaceFirstL_of_prefix "ERROR:".data r.data h
    simp only [mapResponse, findKind, typeToKeyword, List.find?, h, hT, hA, hR,
      hE, replaceFirstStr, hstrip]
    rfl
  · have hT := startsWith_false_of_other (r := r) "THINKING:" h (by decide)
      (by decide) (by decide)
    refine ⟨fun name args t hm ht => ?_, fun name args hm ht => ?_, fun hm => ?_⟩
    · simp only [mapResponse, findKind, typeToKeyword, List.find?, h, hT, hm, ht]
    · simp only [mapResponse, findKind, typeToKeyword, List.find?, h, hT, hm, ht]
    · simp only [mapResponse, findKind, typeToKeyword, List.find?, h, hT, hm]

/-- Claim C2, counterexample. `"ACTION: x"` begins with exactly one of the
five keyword prefixes, yet classification does not return an Activity of
the Action kind: it throws (the claim's universal matching-kind guarantee
fails on malformed Action outputs). -/
theorem classification_action_prefix_counterexample :
    strStartsWith "ACTION: x" "ACTION:" = true ∧
    kwList.countP (fun k => strStartsWith "ACTION: x" k) = 1 ∧
    mapResponse "ACTION: x" = .error "Unreachable case: action" := by
  decide

/-- Witness for the amended C2: the example from the spec,
`"RESPONSE:  Sunny, 22°C "` classifies to a Response whose body is the
prefix-stripped, trimmed text. -/
theorem classification_of_prefixed_output_witness :
    mapResponse "RESPONSE:  Sunny, 22°C " = .ok (.response "Sunny, 22°C") ∧
    jsTrimStr ⟨("RESPONSE:  Sunny, 22°C ").data.drop 9⟩ = "Sunny, 22°C" := by
  constructor
  · rw [(classification_of_prefixed_output "RESPONSE:  Sunny, 22°C ").2.1
      (by decide)]
    decide
  · decide

/-- The argument capture of the action pattern is never empty:
`[^)]+` requires at least one character. -/
lemma tryActionAt_args_ne_nil {s n a : List Char}
    (h : tryActionAt s = some (n, a)) : a ≠ [] := by
  unfold tryActionAt at h
  split at h
  · dsimp only at h
    split at h
    · exact absurd h (by simp)
    · split at h
      · split at h
        · exact absurd h (by simp)
        · rename_i hne
          split at h
          · obtain ⟨-, rfl⟩ : n = _ ∧ a = _ := by
              constructor
              · exact (congrArg Prod.fst (Option.some.inj h)).symm
              · exact (congrArg Prod.snd (Option.some.inj h)).symm
            intro hc
            exact hne (List.isEmpty_iff.mpr hc)
          · exact absurd h (by simp)
      · exact absurd h (by simp)
  · exact absurd h (by simp)

/-- Search version of `tryActionAt_args_ne_nil`. -/
lemma actionSearch_args_ne_nil : ∀ {l : List Char} {n a : List Char},
    actionSearch l = some (n, a) → a ≠ [] := by
  intro l
  induction l with
  | nil => intro n a h; simp [actionSearch] at h
  | cons c rest ih =>
    intro n a h
    unfold actionSearch at h
    cases ht : tryActionAt (c :: rest) with
    | some r =>
      rw [ht] at h
      obtain rfl : r = (n, a) := by simpa using h
      exact tryActionAt_args_ne_nil ht
    | none => rw [ht] at h; exact ih h

/-- The second capture group of a successful action match is a non-empty
string. -/
lemma actionMatch_args_ne_empty {r name args : String}
    (h : actionMatch r = some (name, args)) : args ≠ "" := by
  unfold actionMatch at h
  cases hs : actionSearch r.data with
  | none => rw [hs] at h; simp at h
  | some p =>
    rw [hs] at h
    obtain ⟨-, rfl⟩ : name = ⟨p.1⟩ ∧ args = ⟨p.2⟩ := by
      simpa [eq_comm] using h
    intro hc
    exact actionSearch_args_ne_nil (l := r.data) (n := p.1) (a := p.2)
      (by rw [hs]) (congrArg String.data hc)

/-- Shared helper: every Action content the classifier returns carries a
`some`, non-empty parameter and no result. -/
lemma mapResponse_action_param {r : String} {t : ToolName}
    {param res : Option String}
    (h : mapResponse r = .ok (.action t param res)) :
    ∃ p, param = some p ∧ p ≠ "" ∧ res = none := by
  unfold mapResponse at h
  split at h
  · injection h with h'; injection h'
  · injection h with h'; injection h'
  · injection h with h'; injection h'
  · injection h with h'; injection h'
  · split at h
    · rename_i name args hm
      split at h
      · injection h with h'
        injection h' with e1 e2 e3
        have hne := actionMatch_args_ne_empty hm
        refine ⟨args, ?_, hne, e3.symm⟩
        rw [← e2]
        simp [strOrNone, hne]
      · injection h
    · injection h
  · injection h

/-! ## Claim C10: classifier-produced Action activities always carry a
usable parameter -/

/-- Claim C10. Every Action activity the classifier returns has a non-null,
non-empty parameter (the pattern requires at least one character between
the parentheses), so the executor's "Parameter is required" branch is
unreachable for classifier-produced activities; and an `ACTION:` output
with an empty argument list is a classification failure, not a tool
invocation. -/
theorem classifier_action_parameter_nonempty :
    (∀ (r : String) (t : ToolName) (param res : Option String),
      mapResponse r = .ok (.action t param res) →
      ∃ p, param = some p ∧ p ≠ "" ∧ res = none) ∧
    (∀ (r : String) (t : ToolName) (param res : Option String)
      (orc : ToolCall → String),
      mapResponse r = .ok (.action t param res) →
      executeAction t param orc ≠
        .error "Parameter is required for action execution") ∧
    mapResponse "ACTION: getWeather()" = .error "Unreachable case: action" := by
  refine ⟨fun r t param res h => mapResponse_action_param h,
    fun r t param res orc h => ?_, by decide⟩
  obtain ⟨p, rfl, hp, -⟩ := mapResponse_action_param h
  intro hc
  cases t
  · simp [executeAction, hp] at hc
  · simp only [executeAction] at hc
    rw [if_neg hp] at hc
    split at hc
    · exact absurd hc (by simp)
    · exact absurd hc (by decide)
  · simp only [executeAction] at hc
    rw [if_neg hp] at hc
    exact absurd hc (by decide)

/-- Witness for C10 at the concrete output
`"ACTION: getWeather(40.0, -74.0)"`. -/
theorem classifier_action_parameter_nonempty_witness :
    (∃ p, (some "40.0, -74.0" : Option String) = some p ∧ p ≠ "" ∧
      (none : Option String) = none) ∧
    executeAction .getWeather (some "40.0, -74.0") (fun _ => "w") ≠
      .error "Parameter is required for action execution" := by
  constructor
  · exact classifier_action_parameter_nonempty.1
      "ACTION: getWeather(40.0, -74.0)" .getWeather (some "40.0, -74.0") none
      (by decide)
  · exact classifier_action_parameter_nonempty.2.1
      "ACTION: getWeather(40.0, -74.0)" .getWeather (some "40.0, -74.0") none
      (fun _ => "w") (by decide)

/-- The fresh state of a session turn for the user prompt `"hi"` (used
by concrete runs below). -/
def initState : AgentState :=
  { messages := [⟨.system, prompt⟩, ⟨.user, "hi"⟩],
    activities := [], modelCalls := 0, toolCalls := [],
    iterations := 0, taskComplete := false }

/-! ## Loop lemmas -/

/-- A completed turn makes no further progress: the loop guard fails. -/
lemma runLoop_of_complete (mo : List Msg → Except String String)
    (orc : ToolCall → String) {s : AgentState} (h : s.taskComplete = true) :
    ∀ f, runLoop mo orc f s = s := by
  intro f
  cases f with
  | zero => rfl
  | succ f => simp [runLoop, h]

/-- Every pass of the loop body makes exactly one model call and
increments the iteration counter exactly once. -/
lemma loopIter_counts (mo : List Msg → Except String String)
    (orc : ToolCall → String) (s : AgentState) :
    (loopIter mo orc s).iterations = s.iterations + 1 ∧
    (loopIter mo orc s).modelCalls = s.modelCalls + 1 := by
  unfold loopIter
  split
  · exact ⟨rfl, rfl⟩
  · split
    · exact ⟨rfl, rfl⟩
    · exact ⟨rfl, rfl⟩
    · split
      · exact ⟨rfl, rfl⟩
      · exact ⟨rfl, rfl⟩
    · exact ⟨rfl, rfl⟩
    · exact ⟨rfl, rfl⟩
    · exact ⟨rfl, rfl⟩

/-- The iteration counter never exceeds the cap (nor its start value). -/
lemma runLoop_iterations_le (mo : List Msg → Except String String)
    (orc : ToolCall → String) :
    ∀ (f : ℕ) (s : AgentState),
      (runLoop mo orc f s).iterations ≤ max s.iterations MAX_ITERATIONS := by
  intro f
  induction f with
  | zero => intro s; exact le_max_left ..
  | succ f ih =>
    intro s
    unfold runLoop
    split
    · rename_i hg
      have h1 := (loopIter_counts mo orc s).1
      have h2 := ih (loopIter mo orc s)
      omega
    · exact le_max_left ..

/-- Model calls and iterations advance in lockstep through the loop. -/
lemma runLoop_modelCalls (mo : List Msg → Except String String)
    (orc : ToolCall → String) :
    ∀ (f : ℕ) (s : AgentState),
      (runLoop mo orc f s).modelCalls + s.iterations =
        s.modelCalls + (runLoop mo orc f s).iterations := by
  intro f
  induction f with
  | zero => intro s; rfl
  | succ f ih =>
    intro s
    unfold runLoop
    split
    · have h1 := (loopIter_counts mo orc s).1
      have h2 := (loopIter_counts mo orc s).2
      have h3 := ih (loopIter mo orc s)
      omega
    · omega

/-! ## Claim C3: classification errors terminate the turn -/

/-- Claim C3. Whenever the model's raw output is a classification error
(the classifier throws — no keyword prefix matched, a malformed Action
shape, or an Action naming a tool outside the enumeration), the cycle
publishes exactly one Error activity, completes the task, invokes no
tool, and no further model calls occur in the turn. -/
theorem classification_error_terminates
    (mo : List Msg → Except String String) (orc : ToolCall → String)
    (s : AgentState) (r msg : String)
    (hmo : mo s.messages = .ok r) (hmap : mapResponse r = .error msg) :
    (loopIter mo orc s).taskComplete = true ∧
    (loopIter mo orc s).activities =
      s.activities ++ [.error ("Agent error: " ++ msg)] ∧
    (loopIter mo orc s).toolCalls = s.toolCalls ∧
    (loopIter mo orc s).modelCalls = s.modelCalls + 1 ∧
    ∀ f, runLoop mo orc f (loopIter mo orc s) = loopIter mo orc s := by
  have hiter : loopIter mo orc s =
      { s with iterations := s.iterations + 1, modelCalls := s.modelCalls + 1,
               activities := s.activities ++ [.error ("Agent error: " ++ msg)],
               taskComplete := true } := by
    unfold loopIter
    rw [hmo]
    dsimp only
    rw [hmap]
  rw [hiter]
  exact ⟨rfl, rfl, rfl, rfl, fun f => runLoop_of_complete mo orc rfl f⟩

/-- Witness for C3: a model output with no keyword prefix, on the fresh
turn state. -/
theorem classification_error_terminates_witness :
    (loopIter (fun _ => .ok "gibberish") (fun _ => "") initState).taskComplete
        = true ∧
    (loopIter (fun _ => .ok "gibberish") (fun _ => "") initState).activities =
      initState.activities ++
        [.error ("Agent error: " ++ "Unreachable case: undefined")] ∧
    (loopIter (fun _ => .ok "gibberish") (fun _ => "") initState).toolCalls =
      initState.toolCalls ∧
    (loopIter (fun _ => .ok "gibberish") (fun _ => "") initState).modelCalls =
      initState.modelCalls + 1 ∧
    ∀ f, runLoop (fun _ => .ok "gibberish") (fun _ => "") f
        (loopIter (fun _ => .ok "gibberish") (fun _ => "") initState) =
      loopIter (fun _ => .ok "gibberish") (fun _ => "") initState :=
  classification_error_terminates (fun _ => .ok "gibberish") (fun _ => "")
    initState "gibberish" "Unreachable case: undefined" rfl (by decide)

/-! ## Claim C1: the iteration cap -/

/-- One pass under a model that replies with a `THINKING:` prefix:
a Thought is published, the transcript grows, the turn stays running. -/
lemma loopIter_thinking (mo : List Msg → Except String String)
    (orc : ToolCall → String) (s : AgentState)
    (hmo : ∃ b, mo s.messages = .ok b ∧ strStartsWith b "THINKING:" = true) :
    ∃ b, loopIter mo orc s =
      { s with iterations := s.iterations + 1, modelCalls := s.modelCalls + 1,
               activities := s.activities ++ [.thought (jsTrimStr ⟨b.data.drop 9⟩)],
               messages := s.messages ++ [⟨.assistant, b⟩] } := by
  obtain ⟨b, hb, hpre⟩ := hmo
  refine ⟨b, ?_⟩
  unfold loopIter
  rw [hb]
  dsimp only
  rw [mapResponse_thinking hpre]

/-- Running the loop under an always-`THINKING:` model: the turn stays
running, publishing one Thought per cycle, until the fuel (= remaining
iterations below the cap) is exhausted. -/
lemma runLoop_thinking (mo : List Msg → Except String String)
    (orc : ToolCall → String)
    (hmo : ∀ ms, ∃ b, mo ms = .ok b ∧ strStartsWith b "THINKING:" = true) :
    ∀ (f : ℕ) (s : AgentState), s.taskComplete = false →
      s.iterations + f = MAX_ITERATIONS →
      (runLoop mo orc f s).taskComplete = false ∧
      (runLoop mo orc f s).iterations = MAX_ITERATIONS ∧
      (runLoop mo orc f s).modelCalls = s.modelCalls + f ∧
      ∃ th : List Content, (runLoop mo orc f s).activities = s.activities ++ th ∧
        th.length = f ∧ ∀ a ∈ th, ∃ b, a = .thought b := by
  intro f
  induction f with
  | zero =>
    intro s htc hit
    simp only [runLoop]
    exact ⟨htc, by omega, rfl, [], by simp, rfl, by simp⟩
  | succ f ih =>
    intro s htc hit
    have hguard : s.taskComplete = false ∧ s.iterations < MAX_ITERATIONS :=
      ⟨htc, by omega⟩
    unfold runLoop
    rw [if_pos hguard]
    obtain ⟨b, hb⟩ := loopIter_thinking mo orc s (hmo s.messages)
    rw [hb]
    obtain ⟨h1, h2, h3, th, h4, h5, h6⟩ := ih
      { s with iterations := s.iterations + 1, modelCalls := s.modelCalls + 1,
               activities := s.activities ++ [.thought (jsTrimStr ⟨b.data.drop 9⟩)],
               messages := s.messages ++ [⟨.assistant, b⟩] }
      htc (by show s.iterations + 1 + f = MAX_ITERATIONS; omega)
    refine ⟨h1, h2, by dsimp only at h3; omega,
      .thought (jsTrimStr ⟨b.data.drop 9⟩) :: th, ?_, by simp [h5], ?_⟩
    · rw [h4]
      simp
    · intro a ha
      rcases List.mem_cons.mp ha with rfl | hmem
      · exact ⟨_, rfl⟩
      · exact h6 a hmem

/-- Claim C1. The session loop respects the iteration cap: the model is
called at most `MAX_ITERATIONS` (= 10) times in any turn; and under a
model that always replies with a `THINKING:`-prefixed output, the turn
makes exactly `MAX_ITERATIONS` cycles and model calls, publishes one
Thought per cycle, and then terminates with the fixed max-iterations
Error activity — with no additional model call in the terminating
step. -/
theorem loop_iteration_bound :
    (∀ (mo : List Msg → Except String String) (orc : ToolCall → String)
       (p : String), (handleUserPrompt mo orc p).modelCalls ≤ MAX_ITERATIONS) ∧
    (∀ (mo : List Msg → Except String String) (orc : ToolCall → String)
       (p : String),
       (∀ ms, ∃ b, mo ms = .ok b ∧ strStartsWith b "THINKING:" = true) →
       (handleUserPrompt mo orc p).modelCalls = MAX_ITERATIONS ∧
       (handleUserPrompt mo orc p).iterations = MAX_ITERATIONS ∧
       ∃ th : List Content,
         (handleUserPrompt mo orc p).activities =
           th ++ [.error maxIterationsMessage] ∧
         th.length = MAX_ITERATIONS ∧ ∀ a ∈ th, ∃ b, a = .thought b) := by
  constructor
  · intro mo orc p
    unfold handleUserPrompt
    dsimp only
    have hm := runLoop_modelCalls mo orc MAX_ITERATIONS
      { messages := [⟨.system, prompt⟩, ⟨.user, p⟩], activities := [],
        modelCalls := 0, toolCalls := [], iterations := 0, taskComplete := false }
    have hi := runLoop_iterations_le mo orc MAX_ITERATIONS
      { messages := [⟨.system, prompt⟩, ⟨.user, p⟩], activities := [],
        modelCalls := 0, toolCalls := [], iterations := 0, taskComplete := false }
    split <;> simp only at hm hi ⊢ <;> omega
  · intro mo orc p hmo
    unfold handleUserPrompt
    dsimp only
    obtain ⟨h1, h2, h3, th, h4, h5, h6⟩ := runLoop_thinking mo orc hmo
      MAX_ITERATIONS
      { messages := [⟨.system, prompt⟩, ⟨.user, p⟩], activities := [],
        modelCalls := 0, toolCalls := [], iterations := 0, taskComplete := false }
      rfl rfl
    rw [if_pos ⟨h1, by omega⟩]
    refine ⟨by simpa using h3, by simpa using h2, th, ?_, h5, h6⟩
    simp only [h4]
    simp

/-- Witness for C1 under the concrete always-thinking model. -/
theorem loop_iteration_bound_witness :
    (handleUserPrompt (fun _ => .ok "THINKING: working") (fun _ => "")
        "hi").modelCalls = MAX_ITERATIONS ∧
    (handleUserPrompt (fun _ => .ok "THINKING: working") (fun _ => "")
        "hi").modelCalls ≤ MAX_ITERATIONS ∧
    ∃ th : List Content,
      (handleUserPrompt (fun _ => .ok "THINKING: working") (fun _ => "")
          "hi").activities = th ++ [.error maxIterationsMessage] ∧
      th.length = MAX_ITERATIONS ∧ ∀ a ∈ th, ∃ b, a = .thought b := by
  obtain ⟨h1, -, h3⟩ := loop_iteration_bound.2
    (fun _ => .ok "THINKING: working") (fun _ => "") "hi"
    (fun ms => ⟨"THINKING: working", rfl, by decide⟩)
  exact ⟨h1, loop_iteration_bound.1 (fun _ => .ok "THINKING: working")
    (fun _ => "") "hi", h3⟩

/-! ## Claim C4: invalid action parameters -/

/-- Shared helper: the one-cycle effect of an Action whose execution
throws. -/
lemma loopIter_action_error (mo : List Msg → Except String String)
    (orc : ToolCall → String) (s : AgentState) (r msg : String)
    (t : ToolName) (param res : Option String)
    (hmo : mo s.messages = .ok r)
    (hmap : mapResponse r = .ok (.action t param res))
    (hexec : executeAction t param orc = .error msg) :
    loopIter mo orc s =
      { s with iterations := s.iterations + 1, modelCalls := s.modelCalls + 1,
               activities := s.activities ++
                 [.action t param res, .error ("Agent error: " ++ msg)],
               taskComplete := true } := by
  unfold loopIter
  rw [hmo]
  dsimp only
  rw [hmap]
  dsimp only
  rw [hexec]

/-- Shared helper: the one-cycle effect of an Action whose execution
succeeds. -/
lemma loopIter_action_ok (mo : List Msg → Except String String)
    (orc : ToolCall → String) (s : AgentState) (r : String)
    (t : ToolName) (param res : Option String) (result : String)
    (calls : List ToolCall)
    (hmo : mo s.messages = .ok r)
    (hmap : mapResponse r = .ok (.action t param res))
    (hexec : executeAction t param orc = .ok (result, calls)) :
    loopIter mo orc s =
      { s with iterations := s.iterations + 1, modelCalls := s.modelCalls + 1,
               activities := s.activities ++
                 [.action t param res,
                  .action t (match param with
                             | some p => strOrNone p
                             | none => none) (some result)],
               messages := s.messages ++
                 [⟨.assistant, r⟩, ⟨.user, "Tool result: " ++ result⟩],
               toolCalls := s.toolCalls ++ calls } := by
  unfold loopIter
  rw [hmo]
  dsimp only
  simp only [hmap, hexec]
  cases param <;> rfl

/-- Claim C4, amended. An Action cycle with an invalid parameter (for
`getWeather`, a parameter without two leading comma-separated numeric
fields, e.g. `"abc, -74.0"`) never invokes the upstream tool; the
executor throws, the failure is published as an `Agent error: …` Error
activity, and the turn terminates — malformed tool input is fatal to the
turn, exactly like a classification error, not recoverable. -/
theorem invalid_parameter_never_invokes_tool :
    (∀ orc : ToolCall → String,
      executeAction .getWeather (some "abc, -74.0") orc =
        .error "Invalid parameter for getWeather action") ∧
    (∀ (mo : List Msg → Except String String) (orc : ToolCall → String)
       (s : AgentState) (r msg : String) (t : ToolName)
       (param res : Option String),
      mo s.messages = .ok r →
      mapResponse r = .ok (.action t param res) →
      executeAction t param orc = .error msg →
      (loopIter mo orc s).toolCalls = s.toolCalls ∧
      (loopIter mo orc s).activities = s.activities ++
        [.action t param res, .error ("Agent error: " ++ msg)] ∧
      (loopIter mo orc s).taskComplete = true ∧
      ∀ f, runLoop mo orc f (loopIter mo orc s) = loopIter mo orc s) := by
  refine ⟨fun orc => rfl, ?_⟩
  intro mo orc s r msg t param res hmo hmap hexec
  rw [loopIter_action_error mo orc s r msg t param res hmo hmap hexec]
  exact ⟨rfl, rfl, rfl, fun f => runLoop_of_complete mo orc rfl f⟩

/-- Claim C4, counterexample to the original claim. On the concrete cycle
`ACTION: getWeather(abc, -74.0)` the turn *terminates* (with a published
Error activity) rather than continuing: `taskComplete` is set after one
iteration and no tool is invoked. -/
theorem invalid_parameter_terminates_turn_counterexample :
    (handleUserPrompt (fun _ => .ok "ACTION: getWeather(abc, -74.0)")
        (fun _ => "w") "hi").taskComplete = true ∧
    (handleUserPrompt (fun _ => .ok "ACTION: getWeather(abc, -74.0)")
        (fun _ => "w") "hi").iterations = 1 ∧
    (handleUserPrompt (fun _ => .ok "ACTION: getWeather(abc, -74.0)")
        (fun _ => "w") "hi").toolCalls = [] ∧
    (handleUserPrompt (fun _ => .ok "ACTION: getWeather(abc, -74.0)")
        (fun _ => "w") "hi").activities =
      [.action .getWeather (some "abc, -74.0") none,
       .error "Agent error: Invalid parameter for getWeather action"] := by
  refine ⟨rfl, rfl, rfl, rfl⟩

/-- Witness for the amended C4, at the concrete invalid parameter of the
spec. -/
theorem invalid_parameter_never_invokes_tool_witness :
    executeAction .getWeather (some "abc, -74.0") (fun _ => "w") =
      .error "Invalid parameter for getWeather action" ∧
    (loopIter (fun _ => .ok "ACTION: getWeather(abc, -74.0)") (fun _ => "w")
        initState).toolCalls = initState.toolCalls ∧
    (loopIter (fun _ => .ok "ACTION: getWeather(abc, -74.0)") (fun _ => "w")
        initState).taskComplete = true := by
  have h := invalid_parameter_never_invokes_tool.2
    (fun _ => .ok "ACTION: getWeather(abc, -74.0)") (fun _ => "w") initState
    "ACTION: getWeather(abc, -74.0)"
    "Invalid parameter for getWeather action" .getWeather
    (some "abc, -74.0") none rfl (by decide) rfl
  exact ⟨invalid_parameter_never_invokes_tool.1 (fun _ => "w"),
    h.1, h.2.2.1⟩

/-! ## Claim C5: the two-phase Action publication -/

/-- Claim C5, amended. Every Action cycle publishes the intent activity
(result absent) first; when tool execution succeeds, the second
published activity is an Action with the *same* tool name and parameter
and the result present; when execution throws (invalid parameter,
unwired tool), the second published activity is instead an Error
activity and the turn terminates. -/
theorem action_cycle_two_publications
    (mo : List Msg → Except String String) (orc : ToolCall → String)
    (s : AgentState) (r : String) (t : ToolName) (param res : Option String)
    (hmo : mo s.messages = .ok r)
    (hmap : mapResponse r = .ok (.action t param res)) :
    ∃ p, param = some p ∧ p ≠ "" ∧ res = none ∧
      (∀ result calls, executeAction t param orc = .ok (result, calls) →
        (loopIter mo orc s).activities = s.activities ++
          [.action t (some p) none, .action t (some p) (some result)]) ∧
      (∀ msg, executeAction t param orc = .error msg →
        (loopIter mo orc s).activities = s.activities ++
          [.action t (some p) none, .error ("Agent error: " ++ msg)] ∧
        (loopIter mo orc s).taskComplete = true) := by
  obtain ⟨p, rfl, hp, rfl⟩ := mapResponse_action_param hmap
  refine ⟨p, rfl, hp, rfl, fun result calls hexec => ?_, fun msg hexec => ?_⟩
  · rw [loopIter_action_ok mo orc s r t (some p) none result calls hmo hmap hexec]
    simp [strOrNone, hp]
  · rw [loopIter_action_error mo orc s r msg t (some p) none hmo hmap hexec]
    exact ⟨rfl, rfl⟩

/-- Claim C5, counterexample to the original claim. The Action cycle
`ACTION: getWeather(xyz, 1)` publishes an intent Action and then an
*Error* activity — not a second Action with the result present — so an
Action cycle does not always publish two Action activities. -/
theorem action_cycle_single_publication_counterexample :
    (handleUserPrompt (fun _ => .ok "ACTION: getWeather(xyz, 1)")
        (fun _ => "w") "hi").activities =
      [.action .getWeather (some "xyz, 1") none,
       .error "Agent error: Invalid parameter for getWeather action"] ∧
    ((handleUserPrompt (fun _ => .ok "ACTION: getWeather(xyz, 1)")
        (fun _ => "w") "hi").activities.countP
      (fun a => match a with
                | .action _ _ (some _) => true
                | _ => false)) = 0 := by
  refine ⟨rfl, rfl⟩

/-- Witness for the amended C5: a successful `getWeather` cycle
publishes the intent and the result Action with identical tool name and
parameter. -/
theorem action_cycle_two_publications_witness :
    ∃ p, (some "40.0, -74.0" : Option String) = some p ∧ p ≠ "" ∧
      (none : Option String) = none ∧
      (∀ result calls,
        executeAction .getWeather (some "40.0, -74.0") (fun _ => "w") =
          .ok (result, calls) →
        (loopIter (fun _ => .ok "ACTION: getWeather(40.0, -74.0)")
            (fun _ => "w") initState).activities = initState.activities ++
          [.action .getWeather (some p) none,
           .action .getWeather (some p) (some result)]) ∧
      (∀ msg,
        executeAction .getWeather (some "40.0, -74.0") (fun _ => "w") =
          .error msg →
        (loopIter (fun _ => .ok "ACTION: getWeather(40.0, -74.0)")
            (fun _ => "w") initState).activities = initState.activities ++
          [.action .getWeather (some p) none,
           .error ("Agent error: " ++ msg)] ∧
        (loopIter (fun _ => .ok "ACTION: getWeather(40.0, -74.0)")
            (fun _ => "w") initState).taskComplete = true) :=
  action_cycle_two_publications
    (fun _ => .ok "ACTION: getWeather(40.0, -74.0)") (fun _ => "w")
    initState "ACTION: getWeather(40.0, -74.0)" .getWeather
    (some "40.0, -74.0") none rfl (by decide)

/-! ## Claim C6: the argument order of the external weather call -/

/-- Splitting a separator-free list yields the single field. -/
lemma jsSplit_no_sep {sep : Char} :
    ∀ {l : List Char}, (∀ c ∈ l, c ≠ sep) → jsSplit sep l = [l] := by
  intro l
  induction l with
  | nil => intro _; rfl
  | cons c rest ih =>
    intro h
    have hc : c ≠ sep := h c (List.mem_cons_self c rest)
    have hrest := ih (fun d hd => h d (List.mem_cons_of_mem c hd))
    simp [jsSplit, hrest, hc]

/-- The split of a list always has at least one field. -/
lemma jsSplit_ne_nil (sep : Char) : ∀ l, jsSplit sep l ≠ [] := by
  intro l
  cases l with
  | nil => simp [jsSplit]
  | cons c rest =>
    simp only [jsSplit]
    split
    · simp
    · split <;> simp

/-- Splitting at the first separator isolates the first field. -/
lemma jsSplit_append {sep : Char} :
    ∀ {l1 l2 : List Char}, (∀ c ∈ l1, c ≠ sep) →
      jsSplit sep (l1 ++ sep :: l2) = l1 :: jsSplit sep l2 := by
  intro l1 l2
  induction l1 with
  | nil =>
    intro _
    simp only [List.nil_append, jsSplit]
    cases hq : jsSplit sep l2 with
    | nil => exact absurd hq (jsSplit_ne_nil sep l2)
    | cons h t => simp
  | cons c rest ih =>
    intro h
    have hc : c ≠ sep := h c (List.mem_cons_self c rest)
    have hrest := ih (fun d hd => h d (List.mem_cons_of_mem c hd))
    simp only [List.cons_append, jsSplit, List.append_eq]
    rw [hrest]
    simp [hc]

/-- Claim C6. For a `getWeather` Action whose parameter is two
comma-separated numeric fields `a ++ "," ++ b`, the external weather
call receives the parsed second field as its **first** argument and the
parsed first field as its **second** argument — `getWeather(lng, lat)`
with `lat` parsed from the first field, even though the model-facing
documentation presents latitude first. -/
theorem weather_call_argument_order (a b : String) (orc : ToolCall → String)
    (x y : JsNum)
    (ha : ∀ c ∈ a.data, c ≠ ',') (hb : ∀ c ∈ b.data, c ≠ ',')
    (hx : parseFloat (jsTrimL a.data) = some x)
    (hy : parseFloat (jsTrimL b.data) = some y) :
    executeAction .getWeather (some (a ++ "," ++ b)) orc =
      .ok (orc (.weather y x), [.weather y x]) := by
  have hdata : (a ++ "," ++ b).data = a.data ++ ',' :: b.data := by
    simp [String.data_append]
  have hne : a ++ "," ++ b ≠ "" := by
    intro h
    have := congrArg String.data h
    rw [hdata] at this
    simp at this
  have hsplit : jsSplit ',' (a ++ "," ++ b).data = [a.data, b.data] := by
    rw [hdata, jsSplit_append ha, jsSplit_no_sep hb]
  simp only [executeAction]
  rw [if_neg hne, hsplit]
  simp only [List.map_cons, List.map_nil, hx, hy]

/-- Witness for C6 at the spec's concrete coordinates: the call carries
`-74.0` first and `40.0` second. -/
theorem weather_call_argument_order_witness :
    executeAction .getWeather (some ("40.0" ++ "," ++ " -74.0"))
        (fun _ => "w") =
      .ok ("w", [.weather (.finite true 74 0 1 0) (.finite false 40 0 1 0)]) :=
  weather_call_argument_order "40.0" " -74.0" (fun _ => "w")
    (.finite false 40 0 1 0) (.finite true 74 0 1 0)
    (by decide) (by decide) (by decide) (by decide)

/-! ## Claim C7: tools are total at their boundary -/

/-- Claim C7. Every tool function is total at its boundary: for every
input and every upstream outcome it returns a value (never an exception
escaping the `jsTry` boundary), each failure mode yields the descriptive
error value of the source, and `getTime` aborts at its fixed 60-second
ceiling, resolving to an error string instead of hanging. -/
theorem tools_total_at_boundary :
    (∀ (city : String) (u : UpstreamResult (List GeoRecord)),
      ∃ res, getCoordinates city u = .ok res) ∧
    (∀ (lat long : JsNum) (u : UpstreamResult (Option WeatherCurrent)),
      ∃ res, getWeather lat long u = .ok res) ∧
    (∀ (lat long : JsNum) (latency : ℕ) (u : UpstreamResult (Option TimeRecord)),
      ∃ res, getTime lat long latency u = .ok res) ∧
    (∀ city m, getCoordinates city (.fetchError m) =
      .ok (.failed ("Failed to get coordinates: " ++ m))) ∧
    (∀ city st sx j, getCoordinates city (.httpResponse false st sx j) =
      .ok (.failed ("OpenStreetMap API error: " ++ toString st ++ " " ++ sx))) ∧
    (∀ lat long m, getWeather lat long (.fetchError m) =
      .ok ("Failed to get weather: " ++ m)) ∧
    (∀ lat long ok st sx m,
      getWeather lat long (.httpResponse ok st sx (.error m)) =
        .ok ("Failed to get weather: " ++ m)) ∧
    (∀ lat long latency u, timeoutMs ≤ latency →
      getTime lat long latency u =
        .ok ("Failed to get time: " ++ abortErrorMessage)) ∧
    (∀ lat long latency st sx j, latency < timeoutMs →
      getTime lat long latency (.httpResponse false st sx j) =
        .ok ("Time API error: " ++ toString st ++ " " ++ sx)) := by
  refine ⟨?_, ?_, ?_, fun city m => rfl, fun city st sx j => rfl,
    fun lat long m => rfl, fun lat long ok st sx m => rfl,
    fun lat long latency u h => ?_, fun lat long latency st sx j h => ?_⟩
  · intro city u
    cases u with
    | fetchError m => exact ⟨_, rfl⟩
    | httpResponse ok st sx j =>
      cases ok
      · exact ⟨_, rfl⟩
      · cases j with
        | error m => exact ⟨_, rfl⟩
        | ok data => cases data <;> exact ⟨_, rfl⟩
  · intro lat long u
    cases u with
    | fetchError m => exact ⟨_, rfl⟩
    | httpResponse ok st sx j =>
      cases j with
      | error m => exact ⟨_, rfl⟩
      | ok data => cases data <;> exact ⟨_, rfl⟩
  · intro lat long latency u
    unfold getTime
    by_cases h : timeoutMs ≤ latency
    · rw [if_pos h]
      exact ⟨_, rfl⟩
    · rw [if_neg h]
      cases u with
      | fetchError m => exact ⟨_, rfl⟩
      | httpResponse ok st sx j =>
        cases ok
        · exact ⟨_, rfl⟩
        · cases j with
          | error m => exact ⟨_, rfl⟩
          | ok data => cases data <;> exact ⟨_, rfl⟩
  · unfold getTime
    rw [if_pos h]
    rfl
  · unfold getTime
    rw [if_neg (by omega)]
    rfl

/-- Witness for C7's hypothesis-bearing conjuncts: the 60-second abort
and a non-2xx time response. -/
theorem tools_total_at_boundary_witness :
    getTime (.finite false 1 0 0 0) (.finite false 2 0 0 0) 60000
        (.httpResponse true 200 "OK" (.ok none)) =
      .ok ("Failed to get time: " ++ abortErrorMessage) ∧
    getTime (.finite false 1 0 0 0) (.finite false 2 0 0 0) 3
        (.httpResponse false 503 "Service Unavailable" (.ok none)) =
      .ok ("Time API error: " ++ toString 503 ++ " " ++ "Service Unavailable") := by
  constructor
  · exact tools_total_at_boundary.2.2.2.2.2.2.2.1 (.finite false 1 0 0 0)
      (.finite false 2 0 0 0) 60000 (.httpResponse true 200 "OK" (.ok none))
      (by decide)
  · exact tools_total_at_boundary.2.2.2.2.2.2.2.2 (.finite false 1 0 0 0)
      (.finite false 2 0 0 0) 3 503 "Service Unavailable" (.ok none)
      (by decide)

/-! ## Claim C8: the tool enumeration and the executor dispatch have
drifted -/

/-- Claim C8, refuting evidence. `getTime` is accepted by the closed
`ToolName` enumeration (and advertised by the model-facing prompt and the
README), and the `getTime` tool exists in the registry — but the
executor's dispatch has no `getTime` case: executing a valid `getTime`
Action throws `UnreachableCaseError` instead of invoking the registered
tool, and the turn ends with an Error activity.  The three components
*have* drifted out of sync. -/
theorem getTime_enumerated_but_not_dispatched :
    isToolName "getTime" = true ∧
    toolNameOf "getTime" = some .getTime ∧
    (∀ orc : ToolCall → String,
      executeAction .getTime (some "40.7128, -74.0060") orc =
        .error "Unreachable case: getTime") ∧
    (handleUserPrompt (fun _ => .ok "ACTION: getTime(40.7128, -74.0060)")
        (fun _ => "w") "hi").activities =
      [.action .getTime (some "40.7128, -74.0060") none,
       .error "Agent error: Unreachable case: getTime"] ∧
    (handleUserPrompt (fun _ => .ok "ACTION: getTime(40.7128, -74.0060)")
        (fun _ => "w") "hi").toolCalls = [] := by
  exact ⟨by decide, by decide, fun orc => rfl, rfl, rfl⟩

end WeatherBot
